import Mathlib

/-!
# Verification of the WACC calculator frontend (`src/WaccForm.js`, `src/App.js`)

Shallow embedding of the numeric logic of `WaccForm.js`:

* JavaScript numbers are modelled as `JsNum`: either `NaN` or a rational
  value (finite doubles idealized as `ℚ`; `Infinity` does not arise from
  the finite inputs modelled here, and every division in the source is
  guarded by a positivity test on the divisor).
* Form fields are strings; for the logic only three facts about a string
  matter: whether it is the empty string `""` (falsy, and the only value
  `toDecimal` maps to `undefined`), and otherwise the result of JS
  `Number(...)` on it — a finite rational or `NaN`.  `Field` records
  exactly that.
* `undefined`/`null`/non-number JS values reaching the display logic are
  modelled by `JsVal`.
-/

namespace Wacc

/-- A JavaScript number: `NaN` or a finite value (idealized as `ℚ`). -/
inductive JsNum where
  | nan : JsNum
  | val (q : ℚ) : JsNum
deriving DecidableEq

/-- JS `+` on numbers: `NaN` propagates. -/
def JsNum.add : JsNum → JsNum → JsNum
  | .val a, .val b => .val (a + b)
  | _, _ => .nan

/-- JS `*` on numbers: `NaN` propagates. -/
def JsNum.mul : JsNum → JsNum → JsNum
  | .val a, .val b => .val (a * b)
  | _, _ => .nan

/-- JS `-` on numbers: `NaN` propagates. -/
def JsNum.sub : JsNum → JsNum → JsNum
  | .val a, .val b => .val (a - b)
  | _, _ => .nan

/-- JS `/` on numbers: `NaN` propagates.  JS `x / 0` is `±Infinity` (or
`NaN`), which is not modelled; every use of division in the source is
guarded by `0 < divisor` (`V_rupees > 0`, or a nonzero literal `100`). -/
def JsNum.div : JsNum → JsNum → JsNum
  | .val a, .val b => .val (a / b)
  | _, _ => .nan

/-- JS `x > 0` as a boolean: `NaN > 0` is `false`. -/
def JsNum.gt0 : JsNum → Bool
  | .val a => decide (0 < a)
  | .nan => false

/-- A form field string, by the only facts the logic inspects: `empty` is
the literal `""`; `num q` is a non-empty string that JS `Number` parses to
the finite value `q` (whitespace-only strings parse to `0`); `nonNumeric`
is a non-empty string on which `Number` yields `NaN`.  (Strings parsing to
`±Infinity` are outside the model.) -/
inductive Field where
  | empty : Field
  | num (q : ℚ) : Field
  | nonNumeric : Field
deriving DecidableEq

/-- JS `Number(s)` on a field string (`Number("") = 0`). -/
def jsNumber : Field → JsNum
  | .empty => .val 0
  | .num q => .val q
  | .nonNumeric => .nan

/-- The form state: the eight controlled string fields of `WaccForm`. -/
structure Form where
  equityValue : Field
  debtValue : Field
  re : Field
  rf : Field
  beta : Field
  marketRiskPremium : Field
  rd : Field
  taxRate : Field
deriving DecidableEq

/-- `toDecimal` from `submit`: `(val) => (val === "" ? undefined : Number(val) / 100)`. -/
def toDecimal (v : Field) : Option JsNum :=
  if v = .empty then none else some ((jsNumber v).div (.val 100))

/-- The request object built by `submit`.  `rd`/`taxRate` are always
assigned (possibly `undefined`); `re`, `rf`, `beta`, `marketRiskPremium`
are only conditionally added, absence modelled as `none`. -/
structure Payload where
  equityValue : JsNum
  debtValue : JsNum
  rd : Option JsNum
  taxRate : Option JsNum
  re : Option JsNum
  rf : Option JsNum
  beta : Option JsNum
  marketRiskPremium : Option JsNum
deriving DecidableEq

/-- The payload construction in `submit` (WaccForm.js lines 90–107):
`croreToRupees = 10000000`; `equityValue`/`debtValue` are
`Number(form.x || 0) * croreToRupees` (for a string, `x || 0` is `0`
exactly when `x` is `""`, and `Number("") = 0`, so this is
`Number(form.x) * croreToRupees`); `rd`/`taxRate` via `toDecimal`;
if `form.re !== ""` then `re` is set and the CAPM fields are not,
else the CAPM triple is set only when all three are non-empty. -/
def buildPayload (f : Form) : Payload :=
  let base : Payload :=
    { equityValue := (jsNumber f.equityValue).mul (.val 10000000)
      debtValue := (jsNumber f.debtValue).mul (.val 10000000)
      rd := toDecimal f.rd
      taxRate := toDecimal f.taxRate
      re := none, rf := none, beta := none, marketRiskPremium := none }
  if f.re ≠ .empty then
    { base with re := toDecimal f.re }
  else
    if f.rf ≠ .empty ∧ f.beta ≠ .empty ∧ f.marketRiskPremium ≠ .empty then
      { base with
          rf := toDecimal f.rf
          beta := some (jsNumber f.beta)
          marketRiskPremium := toDecimal f.marketRiskPremium }
    else base

/-- A JS value as inspected by the display logic: `undefined`, `null`,
a number, or any other (non-nullish, non-number) value. -/
inductive JsVal where
  | undefinedV : JsVal
  | nullV : JsVal
  | number (n : JsNum) : JsVal
  | other : JsVal
deriving DecidableEq

/-- JS nullish test (`??` fires on `undefined` and `null`). -/
def JsVal.nullish : JsVal → Bool
  | .undefinedV => true
  | .nullV => true
  | _ => false

/-- JS `a ?? b`. -/
def coalesce (a b : JsVal) : JsVal :=
  if a.nullish then b else a

/-- JS `typeof a === "number"` (true for `NaN` as well). -/
def JsVal.isNumber : JsVal → Bool
  | .number _ => true
  | _ => false

/-- The API response object (`result`): each field a JS value
(`undefinedV` for a missing property). -/
structure ApiResult where
  wacc : JsVal
  re : JsVal
  rd : JsVal
  taxRate : JsVal
  weightE : JsVal
  weightD : JsVal
deriving DecidableEq

/-- JS optional chaining `result?.x`: `undefined` when `result` is `null`. -/
def optField (res : Option ApiResult) (proj : ApiResult → JsVal) : JsVal :=
  match res with
  | none => .undefinedV
  | some r => proj r

/-- `croreToNumber` (line 126): `(cr) => Number(cr || 0) * 10000000`;
for a string field, `Number(cr || 0) = Number(cr)`. -/
def croreToNumber (v : Field) : JsNum :=
  (jsNumber v).mul (.val 10000000)

/-- `E_rupees` (line 127). -/
def E_rupees (f : Form) : JsNum := croreToNumber f.equityValue

/-- `D_rupees` (line 128). -/
def D_rupees (f : Form) : JsNum := croreToNumber f.debtValue

/-- `V_rupees` (line 129). -/
def V_rupees (f : Form) : JsNum := (E_rupees f).add (D_rupees f)

/-- `Re_dec` (line 131): `result?.re ?? (form.re ? Number(form.re) / 100 : undefined)`;
a string is truthy exactly when non-empty. -/
def Re_dec (f : Form) (res : Option ApiResult) : JsVal :=
  coalesce (optField res (·.re))
    (if f.re = .empty then .undefinedV else .number ((jsNumber f.re).div (.val 100)))

/-- `Rd_dec` (line 132). -/
def Rd_dec (f : Form) (res : Option ApiResult) : JsVal :=
  coalesce (optField res (·.rd))
    (if f.rd = .empty then .undefinedV else .number ((jsNumber f.rd).div (.val 100)))

/-- `Tc_dec` (line 133). -/
def Tc_dec (f : Form) (res : Option ApiResult) : JsVal :=
  coalesce (optField res (·.taxRate))
    (if f.taxRate = .empty then .undefinedV else .number ((jsNumber f.taxRate).div (.val 100)))

/-- `weightE_input` (line 135): `V_rupees > 0 ? E_rupees / V_rupees : undefined`. -/
def weightE_input (f : Form) : JsVal :=
  if (V_rupees f).gt0 then .number ((E_rupees f).div (V_rupees f)) else .undefinedV

/-- `weightD_input` (line 136). -/
def weightD_input (f : Form) : JsVal :=
  if (V_rupees f).gt0 then .number ((D_rupees f).div (V_rupees f)) else .undefinedV

/-- `weightE` (line 139):
`typeof result?.weightE === "number" ? result.weightE : (weightE_input ?? result?.weightE ?? 0)`. -/
def weightE (f : Form) (res : Option ApiResult) : JsVal :=
  if (optField res (·.weightE)).isNumber then optField res (·.weightE)
  else coalesce (coalesce (weightE_input f) (optField res (·.weightE))) (.number (.val 0))

/-- `weightD` (line 140). -/
def weightD (f : Form) (res : Option ApiResult) : JsVal :=
  if (optField res (·.weightD)).isNumber then optField res (·.weightD)
  else coalesce (coalesce (weightD_input f) (optField res (·.weightD))) (.number (.val 0))

/-- `waccComputed` (lines 143–147): each guarded summand contributes `0`
when its `typeof` guards fail. -/
def waccComputed (f : Form) (res : Option ApiResult) : JsNum :=
  JsNum.add
    (match weightE f res, Re_dec f res with
     | .number w, .number r => w.mul r
     | _, _ => .val 0)
    (match weightD f res, Rd_dec f res, Tc_dec f res with
     | .number w, .number r, .number t => (w.mul r).mul ((JsNum.val 1).sub t)
     | _, _, _ => .val 0)

/-! ## Concrete forms used as witnesses -/

/-- The worked scenario of the spec: E=200 Cr, D=50 Cr, Re=12%, Rd=5%, Tc=25%. -/
def form200 : Form :=
  { equityValue := .num 200, debtValue := .num 50, re := .num 12
    rf := .empty, beta := .empty, marketRiskPremium := .empty
    rd := .num 5, taxRate := .num 25 }

/-- The form with every field left empty. -/
def formEmpty : Form :=
  { equityValue := .empty, debtValue := .empty, re := .empty
    rf := .empty, beta := .empty, marketRiskPremium := .empty
    rd := .empty, taxRate := .empty }

/-- Evaluation of the locally derived display values on `form200`. -/
theorem form200_eval :
    weightE form200 none = .number (.val (4/5)) ∧
    weightD form200 none = .number (.val (1/5)) ∧
    Re_dec form200 none = .number (.val (12/100)) ∧
    Rd_dec form200 none = .number (.val (5/100)) ∧
    Tc_dec form200 none = .number (.val (25/100)) := by
  refine ⟨?_, ?_, ?_, ?_, ?_⟩ <;>
    norm_num [weightE, weightD, weightE_input, weightD_input, Re_dec, Rd_dec, Tc_dec,
      optField, coalesce, JsVal.nullish, JsVal.isNumber, V_rupees, E_rupees, D_rupees,
      croreToNumber, jsNumber, form200, JsNum.mul, JsNum.add, JsNum.gt0, JsNum.div] <;>
    exact fun h => absurd h (by decide)

/-! ## Claims C1–C4 -/

/-- **C1.** For every form state (and API-result state) in which `weightE`,
`weightD`, `Re_dec`, `Rd_dec` and `Tc_dec` all resolve to (actual, non-NaN)
numbers, the locally computed WACC equals
`weightE * Re + weightD * Rd * (1 - Tc)`. -/
theorem waccComputed_formula (f : Form) (res : Option ApiResult)
    (we wd re rd tc : ℚ)
    (hwe : weightE f res = .number (.val we))
    (hwd : weightD f res = .number (.val wd))
    (hre : Re_dec f res = .number (.val re))
    (hrd : Rd_dec f res = .number (.val rd))
    (htc : Tc_dec f res = .number (.val tc)) :
    waccComputed f res = .val (we * re + wd * rd * (1 - tc)) := by
  unfold waccComputed
  rw [hwe, hwd, hre, hrd, htc]
  simp [JsNum.add, JsNum.mul, JsNum.sub]

/-- Witness for C1 at the worked scenario (no API result). -/
theorem waccComputed_formula_witness :
    waccComputed form200 none = .val ((4/5) * (12/100) + (1/5) * (5/100) * (1 - 25/100)) :=
  waccComputed_formula form200 none (4/5) (1/5) (12/100) (5/100) (25/100)
    form200_eval.1 form200_eval.2.1 form200_eval.2.2.1 form200_eval.2.2.2.1
    form200_eval.2.2.2.2

/-- **C2.** For numeric equity and debt inputs `e, d ≥ 0` (in crore) with
`e + d > 0`, the locally derived weights are numbers summing exactly to 1. -/
theorem weights_sum_to_one (f : Form) (e d : ℚ)
    (he : f.equityValue = .num e) (hd : f.debtValue = .num d)
    (_h0e : 0 ≤ e) (_h0d : 0 ≤ d) (hpos : 0 < e + d) :
    ∃ we wd : ℚ, weightE_input f = .number (.val we) ∧
      weightD_input f = .number (.val wd) ∧ we + wd = 1 := by
  have hV : V_rupees f = .val (e * 10000000 + d * 10000000) := by
    simp [V_rupees, E_rupees, D_rupees, croreToNumber, he, hd, jsNumber, JsNum.add, JsNum.mul]
  have hVpos : (0 : ℚ) < e * 10000000 + d * 10000000 := by nlinarith
  refine ⟨e * 10000000 / (e * 10000000 + d * 10000000),
          d * 10000000 / (e * 10000000 + d * 10000000), ?_, ?_, ?_⟩
  · simp [weightE_input, hV, E_rupees, croreToNumber, he, jsNumber, JsNum.gt0, JsNum.div,
      JsNum.mul, hVpos]
  · simp [weightD_input, hV, D_rupees, croreToNumber, hd, jsNumber, JsNum.gt0, JsNum.div,
      JsNum.mul, hVpos]
  · rw [div_add_div_same, div_self (ne_of_gt hVpos)]

/-- Witness for C2 at the worked scenario. -/
theorem weights_sum_to_one_witness :
    ∃ we wd : ℚ, weightE_input form200 = .number (.val we) ∧
      weightD_input form200 = .number (.val wd) ∧ we + wd = 1 :=
  weights_sum_to_one form200 200 50 rfl rfl (by norm_num) (by norm_num) (by norm_num)

/-- **C3.** For numeric equity and debt inputs with `V = E + D > 0` (base
units `E = e·10⁷`, `D = d·10⁷`), the derived weights are exactly `E/V`
and `D/V`. -/
theorem weights_are_quotients (f : Form) (e d : ℚ)
    (he : f.equityValue = .num e) (hd : f.debtValue = .num d)
    (hpos : 0 < e * 10000000 + d * 10000000) :
    weightE_input f = .number (.val ((e * 10000000) / (e * 10000000 + d * 10000000))) ∧
    weightD_input f = .number (.val ((d * 10000000) / (e * 10000000 + d * 10000000))) := by
  have hV : V_rupees f = .val (e * 10000000 + d * 10000000) := by
    simp [V_rupees, E_rupees, D_rupees, croreToNumber, he, hd, jsNumber, JsNum.add, JsNum.mul]
  constructor
  · simp [weightE_input, hV, E_rupees, croreToNumber, he, jsNumber, JsNum.gt0, JsNum.div,
      JsNum.mul, hpos]
  · simp [weightD_input, hV, D_rupees, croreToNumber, hd, jsNumber, JsNum.gt0, JsNum.div,
      JsNum.mul, hpos]

/-- Witness for C3 at the worked scenario. -/
theorem weights_are_quotients_witness :
    weightE_input form200 =
      .number (.val ((200 * 10000000) / (200 * 10000000 + 50 * 10000000))) ∧
    weightD_input form200 =
      .number (.val ((50 * 10000000) / (200 * 10000000 + 50 * 10000000))) :=
  weights_are_quotients form200 200 50 rfl rfl (by norm_num)

/-- **C4.** On the worked scenario (E=200 Cr, D=50 Cr, Re=12%, Rd=5%,
Tc=25%, no API result): `V` is 250 scaled units, `weightE = 0.8`,
`weightD = 0.2` and the computed WACC is `0.1035`. -/
theorem worked_scenario :
    V_rupees form200 = .val (250 * 10000000) ∧
    weightE form200 none = .number (.val (8/10)) ∧
    weightD form200 none = .number (.val (2/10)) ∧
    waccComputed form200 none = .val (1035/10000) := by
  have h := form200_eval
  refine ⟨?_, ?_, ?_, ?_⟩
  · norm_num [V_rupees, E_rupees, D_rupees, croreToNumber, jsNumber, form200,
      JsNum.mul, JsNum.add]
  · rw [h.1]; norm_num
  · rw [h.2.1]; norm_num
  · unfold waccComputed
    rw [h.1, h.2.1, h.2.2.1, h.2.2.2.1, h.2.2.2.2]
    norm_num [JsNum.add, JsNum.mul, JsNum.sub]

/-! ## Characterization of `buildPayload` -/

theorem bp_rd (f : Form) : (buildPayload f).rd = toDecimal f.rd := by
  simp only [buildPayload]
  split_ifs <;> rfl

theorem bp_taxRate (f : Form) : (buildPayload f).taxRate = toDecimal f.taxRate := by
  simp only [buildPayload]
  split_ifs <;> rfl

theorem bp_equity (f : Form) :
    (buildPayload f).equityValue = (jsNumber f.equityValue).mul (.val 10000000) := by
  simp only [buildPayload]
  split_ifs <;> rfl

theorem bp_debt (f : Form) :
    (buildPayload f).debtValue = (jsNumber f.debtValue).mul (.val 10000000) := by
  simp only [buildPayload]
  split_ifs <;> rfl

theorem bp_re_nonempty (f : Form) (h : f.re ≠ .empty) :
    (buildPayload f).re = toDecimal f.re := by
  simp only [buildPayload]
  rw [if_pos h]

theorem bp_re_empty (f : Form) (h : f.re = .empty) : (buildPayload f).re = none := by
  simp only [buildPayload]
  rw [if_neg (by simp [h])]
  split_ifs <;> rfl

theorem bp_capm_none_of_re (f : Form) (h : f.re ≠ .empty) :
    (buildPayload f).rf = none ∧ (buildPayload f).beta = none ∧
    (buildPayload f).marketRiskPremium = none := by
  simp only [buildPayload]
  rw [if_pos h]
  exact ⟨rfl, rfl, rfl⟩

theorem bp_capm_on (f : Form) (h : f.re = .empty)
    (hc : f.rf ≠ .empty ∧ f.beta ≠ .empty ∧ f.marketRiskPremium ≠ .empty) :
    (buildPayload f).rf = toDecimal f.rf ∧
    (buildPayload f).beta = some (jsNumber f.beta) ∧
    (buildPayload f).marketRiskPremium = toDecimal f.marketRiskPremium := by
  simp only [buildPayload]
  rw [if_neg (by simp [h]), if_pos hc]
  exact ⟨rfl, rfl, rfl⟩

theorem bp_capm_off (f : Form) (h : f.re = .empty)
    (hc : ¬(f.rf ≠ .empty ∧ f.beta ≠ .empty ∧ f.marketRiskPremium ≠ .empty)) :
    (buildPayload f).rf = none ∧ (buildPayload f).beta = none ∧
    (buildPayload f).marketRiskPremium = none := by
  simp only [buildPayload]
  rw [if_neg (by simp [h]), if_neg hc]
  exact ⟨rfl, rfl, rfl⟩

theorem toDecimal_num (q : ℚ) : toDecimal (.num q) = some (.val (q / 100)) := by
  rw [toDecimal, if_neg (fun h => Field.noConfusion h)]
  rfl

theorem toDecimal_empty : toDecimal .empty = none := rfl

/-! ## Claim C5 -/

/-- **C5.** Input normalization: each percentage field that reaches the
payload is its numeric value divided by 100; each currency field is its
numeric value times 10,000,000; each empty field maps to the absent state
`none`, except `equityValue`/`debtValue`, which default to `0`. -/
theorem normalization_contract (f : Form) :
    (∀ q : ℚ, f.rd = .num q → (buildPayload f).rd = some (.val (q / 100))) ∧
    (∀ q : ℚ, f.taxRate = .num q → (buildPayload f).taxRate = some (.val (q / 100))) ∧
    (∀ q : ℚ, f.re = .num q → (buildPayload f).re = some (.val (q / 100))) ∧
    (∀ q : ℚ, f.re = .empty → f.beta ≠ .empty → f.marketRiskPremium ≠ .empty →
      f.rf = .num q → (buildPayload f).rf = some (.val (q / 100))) ∧
    (∀ q : ℚ, f.re = .empty → f.rf ≠ .empty → f.beta ≠ .empty →
      f.marketRiskPremium = .num q →
      (buildPayload f).marketRiskPremium = some (.val (q / 100))) ∧
    (∀ q : ℚ, f.equityValue = .num q → (buildPayload f).equityValue = .val (q * 10000000)) ∧
    (∀ q : ℚ, f.debtValue = .num q → (buildPayload f).debtValue = .val (q * 10000000)) ∧
    (f.rd = .empty → (buildPayload f).rd = none) ∧
    (f.taxRate = .empty → (buildPayload f).taxRate = none) ∧
    (f.re = .empty → (buildPayload f).re = none) ∧
    (f.rf = .empty → (buildPayload f).rf = none) ∧
    (f.beta = .empty → (buildPayload f).beta = none) ∧
    (f.marketRiskPremium = .empty → (buildPayload f).marketRiskPremium = none) ∧
    (f.equityValue = .empty → (buildPayload f).equityValue = .val 0) ∧
    (f.debtValue = .empty → (buildPayload f).debtValue = .val 0) := by
  refine ⟨?_, ?_, ?_, ?_, ?_, ?_, ?_, ?_, ?_, ?_, ?_, ?_, ?_, ?_, ?_⟩
  · intro q h; rw [bp_rd, h, toDecimal_num]
  · intro q h; rw [bp_taxRate, h, toDecimal_num]
  · intro q h
    rw [bp_re_nonempty f (by rw [h]; exact fun hq => Field.noConfusion hq), h, toDecimal_num]
  · intro q hre hb hm h
    have := bp_capm_on f hre ⟨by rw [h]; exact fun hq => Field.noConfusion hq, hb, hm⟩
    rw [this.1, h, toDecimal_num]
  · intro q hre hrf hb h
    have := bp_capm_on f hre ⟨hrf, hb, by rw [h]; exact fun hq => Field.noConfusion hq⟩
    rw [this.2.2, h, toDecimal_num]
  · intro q h; rw [bp_equity, h]; simp [jsNumber, JsNum.mul]
  · intro q h; rw [bp_debt, h]; simp [jsNumber, JsNum.mul]
  · intro h; rw [bp_rd, h, toDecimal_empty]
  · intro h; rw [bp_taxRate, h, toDecimal_empty]
  · exact bp_re_empty f
  · intro h
    by_cases hre : f.re = .empty
    · exact (bp_capm_off f hre (by tauto)).1
    · exact (bp_capm_none_of_re f hre).1
  · intro h
    by_cases hre : f.re = .empty
    · exact (bp_capm_off f hre (by tauto)).2.1
    · exact (bp_capm_none_of_re f hre).2.1
  · intro h
    by_cases hre : f.re = .empty
    · exact (bp_capm_off f hre (by tauto)).2.2
    · exact (bp_capm_none_of_re f hre).2.2
  · intro h; rw [bp_equity, h]; simp [jsNumber, JsNum.mul]
  · intro h; rw [bp_debt, h]; simp [jsNumber, JsNum.mul]

/-- A form resolving Re via CAPM: E=100 Cr, D=0 Cr, Rf=4%, beta=1.2, MRP=6%. -/
def formCapm : Form :=
  { equityValue := .num 100, debtValue := .num 0, re := .empty
    rf := .num 4, beta := .num (6/5), marketRiskPremium := .num 6
    rd := .num 5, taxRate := .num 25 }

/-- Witness for C5, exercising every conjunct on concrete forms. -/
theorem normalization_contract_witness :
    (buildPayload form200).rd = some (.val (5 / 100)) ∧
    (buildPayload form200).taxRate = some (.val (25 / 100)) ∧
    (buildPayload form200).re = some (.val (12 / 100)) ∧
    (buildPayload formCapm).rf = some (.val (4 / 100)) ∧
    (buildPayload formCapm).marketRiskPremium = some (.val (6 / 100)) ∧
    (buildPayload form200).equityValue = .val (200 * 10000000) ∧
    (buildPayload form200).debtValue = .val (50 * 10000000) ∧
    (buildPayload formEmpty).rd = none ∧
    (buildPayload formEmpty).taxRate = none ∧
    (buildPayload formEmpty).re = none ∧
    (buildPayload formEmpty).rf = none ∧
    (buildPayload formEmpty).beta = none ∧
    (buildPayload formEmpty).marketRiskPremium = none ∧
    (buildPayload formEmpty).equityValue = .val 0 ∧
    (buildPayload formEmpty).debtValue = .val 0 := by
  have h2 := normalization_contract form200
  have hc := normalization_contract formCapm
  have he := normalization_contract formEmpty
  exact ⟨h2.1 5 rfl, h2.2.1 25 rfl, h2.2.2.1 12 rfl,
    hc.2.2.2.1 4 rfl (by decide) (by decide) rfl,
    hc.2.2.2.2.1 6 rfl (by decide) (by decide) rfl,
    h2.2.2.2.2.2.1 200 rfl, h2.2.2.2.2.2.2.1 50 rfl,
    he.2.2.2.2.2.2.2.1 rfl, he.2.2.2.2.2.2.2.2.1 rfl, he.2.2.2.2.2.2.2.2.2.1 rfl,
    he.2.2.2.2.2.2.2.2.2.2.1 rfl, he.2.2.2.2.2.2.2.2.2.2.2.1 rfl,
    he.2.2.2.2.2.2.2.2.2.2.2.2.1 rfl, he.2.2.2.2.2.2.2.2.2.2.2.2.2.1 rfl,
    he.2.2.2.2.2.2.2.2.2.2.2.2.2.2 rfl⟩

/-! ## Claim C6 -/

/-- A form whose `rd` field holds a non-numeric string. -/
def formBadRd : Form :=
  { equityValue := .num 100, debtValue := .num 100, re := .num 12
    rf := .empty, beta := .empty, marketRiskPremium := .empty
    rd := .nonNumeric, taxRate := .num 25 }

/-- Display-value evaluation on `formBadRd` (no API result). -/
theorem formBadRd_eval :
    weightE formBadRd none = .number (.val (1/2)) ∧
    weightD formBadRd none = .number (.val (1/2)) ∧
    Re_dec formBadRd none = .number (.val (12/100)) ∧
    Rd_dec formBadRd none = .number .nan ∧
    Tc_dec formBadRd none = .number (.val (25/100)) := by
  refine ⟨?_, ?_, ?_, ?_, ?_⟩ <;>
    norm_num [weightE, weightD, weightE_input, weightD_input, Re_dec, Rd_dec, Tc_dec,
      optField, coalesce, JsVal.nullish, JsVal.isNumber, V_rupees, E_rupees, D_rupees,
      croreToNumber, jsNumber, formBadRd, JsNum.mul, JsNum.add, JsNum.gt0, JsNum.div] <;>
    exact fun h => absurd h (by decide)

/-- **C6 (refuting the claim on the code).** A non-numeric `rd` input is
silently coerced by `Number` to `NaN`: it propagates into the computed
request (`payload.rd = NaN`) and into the locally computed WACC
(`waccComputed = NaN`); it is neither rejected nor treated as absent. -/
theorem nonNumeric_rd_propagates_nan :
    (buildPayload formBadRd).rd = some JsNum.nan ∧
    waccComputed formBadRd none = JsNum.nan := by
  constructor
  · rw [bp_rd]
    rfl
  · have h := formBadRd_eval
    unfold waccComputed
    rw [h.1, h.2.1, h.2.2.1, h.2.2.2.1, h.2.2.2.2]
    simp [JsNum.add, JsNum.mul, JsNum.sub]

/-! ## Claim C7 -/

/-- **C7.** When an explicit Re is supplied (`form.re` non-empty) together
with a full CAPM triple, the payload carries the normalized explicit Re and
none of the CAPM inputs. -/
theorem explicit_re_precedence (f : Form) (hre : f.re ≠ .empty)
    (_hrf : f.rf ≠ .empty) (_hb : f.beta ≠ .empty) (_hm : f.marketRiskPremium ≠ .empty) :
    (buildPayload f).re = toDecimal f.re ∧
    (buildPayload f).rf = none ∧
    (buildPayload f).beta = none ∧
    (buildPayload f).marketRiskPremium = none := by
  have h := bp_capm_none_of_re f hre
  exact ⟨bp_re_nonempty f hre, h.1, h.2.1, h.2.2⟩

/-- A form with both an explicit Re and a full CAPM triple. -/
def formBoth : Form :=
  { equityValue := .num 200, debtValue := .num 50, re := .num 12
    rf := .num 4, beta := .num (6/5), marketRiskPremium := .num 6
    rd := .num 5, taxRate := .num 25 }

/-- Witness for C7. -/
theorem explicit_re_precedence_witness :
    (buildPayload formBoth).re = some (.val (12 / 100)) ∧
    (buildPayload formBoth).rf = none ∧
    (buildPayload formBoth).beta = none ∧
    (buildPayload formBoth).marketRiskPremium = none := by
  have h := explicit_re_precedence formBoth (by decide) (by decide) (by decide) (by decide)
  refine ⟨?_, h.2.1, h.2.2.1, h.2.2.2⟩
  rw [h.1]
  exact toDecimal_num 12

/-! ## Claim C8 -/

/-- Error kinds of the WACC computation (spec §4.2 / §7). -/
inductive ComputeError where
  | missingCostOfEquity : ComputeError
  | missingCostOfDebtOrTax : ComputeError
deriving DecidableEq

/-- The result record of the WACC computation (spec §3/§4.2). -/
structure ComputeResult where
  wacc : JsNum
  re : JsNum
  rd : JsNum
  taxRate : JsNum
  weightE : JsNum
  weightD : JsNum
deriving DecidableEq

/-- Modelled from the spec: the WACC computation itself runs on the remote
backend that `submit` posts the payload to (WaccForm.js line 110) and is
not part of this repository's `src/`.  Steps follow §4.2: resolve Re from
the explicit value, else from the full CAPM triple `Rf + beta × MRP`, else
fail with the missing-cost-of-equity error; require Rd and Tc; weights are
`E/V`, `D/V`, reported as `0` when `V` is not positive (§3). -/
def compute (p : Payload) : Except ComputeError ComputeResult :=
  let reOpt : Option JsNum :=
    match p.re with
    | some r => some r
    | none =>
      match p.rf, p.beta, p.marketRiskPremium with
      | some rf, some b, some m => some (rf.add (b.mul m))
      | _, _, _ => none
  match reOpt with
  | none => .error .missingCostOfEquity
  | some re =>
    match p.rd, p.taxRate with
    | some rd, some tc =>
      let V := p.equityValue.add p.debtValue
      let wE := if V.gt0 then p.equityValue.div V else .val 0
      let wD := if V.gt0 then p.debtValue.div V else .val 0
      .ok { wacc := (wE.mul re).add ((wD.mul rd).mul ((JsNum.val 1).sub tc))
            re := re, rd := rd, taxRate := tc, weightE := wE, weightD := wD }
    | _, _ => .error .missingCostOfDebtOrTax

/-- **C8.** With no explicit Re and at least one CAPM input missing, the
computation on the submitted payload fails with the missing-cost-of-equity
error (so Re is never silently defaulted to 0). -/
theorem missing_capm_fails (f : Form) (hre : f.re = .empty)
    (hcapm : f.rf = .empty ∨ f.beta = .empty ∨ f.marketRiskPremium = .empty) :
    compute (buildPayload f) = .error .missingCostOfEquity := by
  have h1 : (buildPayload f).re = none := bp_re_empty f hre
  have h2 := bp_capm_off f hre (by tauto)
  simp [compute, h1, h2.1, h2.2.1, h2.2.2]

/-- A form with no explicit Re and an incomplete CAPM triple (beta missing). -/
def formNoRe : Form :=
  { equityValue := .num 100, debtValue := .num 0, re := .empty
    rf := .num 4, beta := .empty, marketRiskPremium := .num 6
    rd := .num 5, taxRate := .num 25 }

/-- Witness for C8. -/
theorem missing_capm_fails_witness :
    compute (buildPayload formNoRe) = .error .missingCostOfEquity :=
  missing_capm_fails formNoRe rfl (Or.inr (Or.inl rfl))

/-! ## Claim C9 -/

/-- **C9.** On every degenerate input with `E = D = 0` (and no API result),
the weights computation reports both weights as the number `0`: the
report-zero policy holds uniformly on all such inputs. -/
theorem zero_capital_weights (f : Form)
    (he : jsNumber f.equityValue = .val 0) (hd : jsNumber f.debtValue = .val 0) :
    weightE f none = .number (.val 0) ∧ weightD f none = .number (.val 0) := by
  have hV : V_rupees f = .val 0 := by
    simp [V_rupees, E_rupees, D_rupees, croreToNumber, he, hd, JsNum.add, JsNum.mul]
  constructor <;>
    simp [weightE, weightD, weightE_input, weightD_input, hV, optField,
      JsVal.isNumber, coalesce, JsVal.nullish, JsNum.gt0]

/-- Witness for C9 at the all-empty form (both fields default to 0). -/
theorem zero_capital_weights_witness :
    weightE formEmpty none = .number (.val 0) ∧ weightD formEmpty none = .number (.val 0) :=
  zero_capital_weights formEmpty rfl rfl

/-! ## The formatting helper `fmt` (lines 33–36)

`fmt(n, dp = 2)` returns `"-"` for `undefined`, `null` and `NaN`, and
otherwise `Number(n).toLocaleString(undefined, { minimumFractionDigits: dp,
maximumFractionDigits: dp })`.  The locale-dependent rendering is modelled
for an en-US-style host locale: half-away-from-zero rounding to `dp`
fraction digits, ',' thousands grouping, '-' sign. -/

/-- Decimal digit characters of `n`, most significant first (fuel-based). -/
def natDigitsAux : ℕ → ℕ → List Char
  | 0, _ => []
  | fuel + 1, n =>
    if n < 10 then [Nat.digitChar n]
    else natDigitsAux fuel (n / 10) ++ [Nat.digitChar (n % 10)]

/-- Decimal digit characters of `n`, most significant first. -/
def natDigits (n : ℕ) : List Char := natDigitsAux (n + 1) n

theorem digitChar_isDigit : ∀ k < 10, (Nat.digitChar k).isDigit = true := by decide

theorem natDigitsAux_ne_nil (fuel n : ℕ) (h : n < fuel) : natDigitsAux fuel n ≠ [] := by
  cases fuel with
  | zero => omega
  | succ fuel =>
    simp only [natDigitsAux]
    split <;> simp

theorem natDigitsAux_isDigit :
    ∀ fuel n, n < fuel → ∀ c ∈ natDigitsAux fuel n, c.isDigit = true := by
  intro fuel
  induction fuel with
  | zero => omega
  | succ fuel ih =>
    intro n hn c hc
    simp only [natDigitsAux] at hc
    split at hc
    · rename_i h10
      rw [List.mem_singleton] at hc
      exact hc ▸ digitChar_isDigit n h10
    · rename_i h10
      rw [List.mem_append, List.mem_singleton] at hc
      rcases hc with hc | hc
      · exact ih (n / 10) (by omega) c hc
      · exact hc ▸ digitChar_isDigit (n % 10) (by omega)

theorem natDigitsAux_len_le :
    ∀ fuel d n, n < fuel → 1 ≤ d → n < 10 ^ d → (natDigitsAux fuel n).length ≤ d := by
  intro fuel
  induction fuel with
  | zero => omega
  | succ fuel ih =>
    intro d n hfuel hd hpow
    simp only [natDigitsAux]
    split
    · simpa using hd
    · rename_i h10
      rw [List.length_append, List.length_singleton]
      have hd2 : 2 ≤ d := by
        by_contra hlt
        have hd1 : d = 1 := by omega
        rw [hd1, pow_one] at hpow
        omega
      have hdiv : n / 10 < 10 ^ (d - 1) := by
        rw [Nat.div_lt_iff_lt_mul (by norm_num)]
        calc n < 10 ^ d := hpow
          _ = 10 ^ (d - 1) * 10 := by
              rw [← pow_succ]
              congr 1
              omega
      have := ih (d - 1) (n / 10) (by omega) (by omega) hdiv
      omega

theorem natDigits_isDigit {n : ℕ} {c : Char} (hc : c ∈ natDigits n) : c.isDigit = true :=
  natDigitsAux_isDigit (n + 1) n (Nat.lt_succ_self n) c hc

theorem natDigits_ne_nil (n : ℕ) : natDigits n ≠ [] :=
  natDigitsAux_ne_nil _ _ (Nat.lt_succ_self n)

theorem natDigits_len_le {n d : ℕ} (hd : 1 ≤ d) (h : n < 10 ^ d) :
    (natDigits n).length ≤ d :=
  natDigitsAux_len_le _ _ _ (Nat.lt_succ_self n) hd h

/-- Insert a ',' after every three characters, counting from the head
(the input is the reversed digit string, so this groups thousands). -/
def group3Rev : List Char → List Char
  | [] => []
  | [a] => [a]
  | [a, b] => [a, b]
  | [a, b, c] => [a, b, c]
  | a :: b :: c :: d :: rest => a :: b :: c :: ',' :: group3Rev (d :: rest)

theorem mem_group3Rev : ∀ (l : List Char) (c : Char), c ∈ group3Rev l → c ∈ l ∨ c = ','
  | [], c => by simp [group3Rev]
  | [a], c => fun h => Or.inl h
  | [a, b], c => fun h => Or.inl h
  | [a, b, d], c => fun h => Or.inl h
  | a :: b :: d :: e :: rest, c => by
    intro h
    simp only [group3Rev, List.mem_cons] at h
    rcases h with h | h | h | h | h
    · exact Or.inl (by simp [h])
    · exact Or.inl (by simp [h])
    · exact Or.inl (by simp [h])
    · exact Or.inr h
    · rcases mem_group3Rev (e :: rest) c h with h' | h'
      · rw [List.mem_cons] at h'
        rcases h' with h' | h' <;> exact Or.inl (by simp [h'])
      · exact Or.inr h'

theorem head_mem_group3Rev (a : Char) (t : List Char) : a ∈ group3Rev (a :: t) := by
  match t with
  | [] => simp [group3Rev]
  | [b] => simp [group3Rev]
  | [b, c] => simp [group3Rev]
  | b :: c :: d :: rest => simp [group3Rev]

/-- Thousands grouping of a digit string (most significant first). -/
def group3 (l : List Char) : List Char := (group3Rev l.reverse).reverse

/-- Left-pad a digit string with zeros to width `n`. -/
def padLeftZeros (s : List Char) (n : ℕ) : List Char :=
  List.replicate (n - s.length) '0' ++ s

theorem padLeftZeros_length (s : List Char) (n : ℕ) (h : s.length ≤ n) :
    (padLeftZeros s n).length = n := by
  simp [padLeftZeros]
  omega

theorem mem_padLeftZeros {c : Char} {s : List Char} {n : ℕ}
    (hc : c ∈ padLeftZeros s n) : c = '0' ∨ c ∈ s := by
  rcases List.mem_append.mp hc with h | h
  · exact Or.inl (List.eq_of_mem_replicate h)
  · exact Or.inr h

/-- Number of characters strictly before the first '.' of a character
list (used on reversed string data: characters after the last '.'). -/
def beforeDotRev : List Char → Option ℕ
  | [] => none
  | c :: cs => if c = '.' then some 0 else (beforeDotRev cs).map (· + 1)

/-- Number of fraction digits a rendered string displays: the length of
the segment after the last '.', and 0 when there is no '.'. -/
def decimalPlaces (s : String) : ℕ := (beforeDotRev s.data.reverse).getD 0

theorem beforeDotRev_eq_none {l : List Char} (h : '.' ∉ l) : beforeDotRev l = none := by
  induction l with
  | nil => rfl
  | cons c cs ih =>
    have h1 : c ≠ '.' := fun hc => h (by simp [hc])
    have h2 : '.' ∉ cs := fun hc => h (by simp [hc])
    simp only [beforeDotRev]
    rw [if_neg h1, ih h2]
    rfl

theorem beforeDotRev_append {l r : List Char} (h : '.' ∉ l) :
    beforeDotRev (l ++ '.' :: r) = some l.length := by
  induction l with
  | nil => simp [beforeDotRev]
  | cons c cs ih =>
    have h1 : c ≠ '.' := fun hc => h (by simp [hc])
    have h2 : '.' ∉ cs := fun hc => h (by simp [hc])
    simp only [List.cons_append, beforeDotRev, List.append_eq]
    rw [if_neg h1, ih h2]
    simp

/-- `|q| · 10^dp`, rounded half away from zero (ECMA-402 `halfExpand`). -/
def roundedScaled (q : ℚ) (dp : ℕ) : ℕ :=
  (Int.floor (|q| * (10 : ℚ) ^ dp + 1 / 2)).toNat

/-- The '-' sign of a negative number. -/
def fmtSign (q : ℚ) : List Char := if q < 0 then ['-'] else []

/-- Integer part with thousands grouping. -/
def fmtIntPart (ip : ℕ) : List Char := group3 (natDigits ip)

/-- '.' and `dp` fraction digits, or nothing when `dp = 0`. -/
def fmtFracPart (fr dp : ℕ) : List Char :=
  if dp = 0 then [] else '.' :: padLeftZeros (natDigits fr) dp

/-- Model of `Number(q).toLocaleString(undefined, { minimumFractionDigits:
dp, maximumFractionDigits: dp })` for a finite number. -/
def fmtRat (q : ℚ) (dp : ℕ) : String :=
  ⟨fmtSign q ++ fmtIntPart (roundedScaled q dp / 10 ^ dp) ++
    fmtFracPart (roundedScaled q dp % 10 ^ dp) dp⟩

/-- `fmt` (lines 33–36): `"-"` for `undefined`/`null` (`none`) and `NaN`,
otherwise the locale rendering with `dp` fraction digits. -/
def fmt (n : Option JsNum) (dp : ℕ) : String :=
  match n with
  | none => "-"
  | some .nan => "-"
  | some (.val q) => fmtRat q dp

/-- `fmt` with the source's default parameter `dp = 2`. -/
def fmtDefault (n : Option JsNum) : String := fmt n 2

theorem not_dot_mem_fmtIntPart (ip : ℕ) : '.' ∉ fmtIntPart ip := by
  intro h
  rw [fmtIntPart, group3, List.mem_reverse] at h
  rcases mem_group3Rev _ _ h with h' | h'
  · rw [List.mem_reverse] at h'
    exact absurd (natDigits_isDigit h') (by decide)
  · exact absurd h' (by decide)

theorem not_dot_mem_fmtSign (q : ℚ) : '.' ∉ fmtSign q := by
  rw [fmtSign]
  split
  · decide
  · decide

theorem not_dot_mem_frac {fr dp : ℕ} {c : Char}
    (hc : c ∈ padLeftZeros (natDigits fr) dp) : c ≠ '.' := by
  rcases mem_padLeftZeros hc with h | h
  · rw [h]
    decide
  · intro he
    rw [he] at h
    exact absurd (natDigits_isDigit h) (by decide)

/-- The rendering of a finite number displays exactly `dp` fraction digits. -/
theorem fmtRat_decimalPlaces (q : ℚ) (dp : ℕ) : decimalPlaces (fmtRat q dp) = dp := by
  rcases Nat.eq_zero_or_pos dp with h0 | hpos
  · subst h0
    rw [decimalPlaces, fmtRat]
    have hno : '.' ∉ fmtSign q ++ fmtIntPart (roundedScaled q 0 / 10 ^ 0) ++
        fmtFracPart (roundedScaled q 0 % 10 ^ 0) 0 := by
      rw [fmtFracPart, if_pos rfl, List.append_nil, List.mem_append]
      rintro (h | h)
      · exact not_dot_mem_fmtSign q h
      · exact not_dot_mem_fmtIntPart _ h
    rw [show (String.mk (fmtSign q ++ fmtIntPart (roundedScaled q 0 / 10 ^ 0) ++
        fmtFracPart (roundedScaled q 0 % 10 ^ 0) 0)).data =
        fmtSign q ++ fmtIntPart (roundedScaled q 0 / 10 ^ 0) ++
        fmtFracPart (roundedScaled q 0 % 10 ^ 0) 0 from rfl]
    rw [beforeDotRev_eq_none (by rwa [List.mem_reverse])]
    rfl
  · rw [decimalPlaces, fmtRat]
    have hlen : (padLeftZeros (natDigits (roundedScaled q dp % 10 ^ dp)) dp).length = dp :=
      padLeftZeros_length _ _
        (natDigits_len_le hpos (Nat.mod_lt _ (pow_pos (by norm_num) dp)))
    rw [show (String.mk (fmtSign q ++ fmtIntPart (roundedScaled q dp / 10 ^ dp) ++
        fmtFracPart (roundedScaled q dp % 10 ^ dp) dp)).data =
        fmtSign q ++ fmtIntPart (roundedScaled q dp / 10 ^ dp) ++
        fmtFracPart (roundedScaled q dp % 10 ^ dp) dp from rfl]
    rw [fmtFracPart, if_neg (by omega)]
    rw [List.reverse_append, List.reverse_cons, List.append_assoc, List.singleton_append]
    rw [beforeDotRev_append (by
      rw [List.mem_reverse]
      exact fun h => not_dot_mem_frac h rfl)]
    simp [hlen]

/-- The rendering of a finite number is never the placeholder `"-"`. -/
theorem fmtRat_ne_dash (q : ℚ) (dp : ℕ) : fmtRat q dp ≠ "-" := by
  intro h
  obtain ⟨a, t, hat⟩ := List.exists_cons_of_ne_nil
    (l := (natDigits (roundedScaled q dp / 10 ^ dp)).reverse)
    (by simp [natDigits_ne_nil])
  have ha_nd : a ∈ natDigits (roundedScaled q dp / 10 ^ dp) := by
    rw [← List.mem_reverse, hat]
    simp
  have ha_int : a ∈ fmtIntPart (roundedScaled q dp / 10 ^ dp) := by
    rw [fmtIntPart, group3, List.mem_reverse, hat]
    exact head_mem_group3Rev a t
  have ha_data : a ∈ fmtSign q ++ fmtIntPart (roundedScaled q dp / 10 ^ dp) ++
      fmtFracPart (roundedScaled q dp % 10 ^ dp) dp :=
    List.mem_append.mpr (Or.inl (List.mem_append.mpr (Or.inr ha_int)))
  have hdata : fmtSign q ++ fmtIntPart (roundedScaled q dp / 10 ^ dp) ++
      fmtFracPart (roundedScaled q dp % 10 ^ dp) dp = ['-'] := congrArg String.data h
  rw [hdata, List.mem_singleton] at ha_data
  rw [ha_data] at ha_nd
  exact absurd (natDigits_isDigit ha_nd) (by decide)

/-! ## Claim C10 -/

/-- **C10.** `fmt` returns `"-"` exactly when its input is
`undefined`/`null` (`none`) or `NaN`; otherwise it renders the number with
exactly `dp` fraction digits; and the source defaults `dp` to 2. -/
theorem fmt_contract :
    (∀ dp, fmt none dp = "-") ∧
    (∀ dp, fmt (some JsNum.nan) dp = "-") ∧
    (∀ q dp, fmt (some (JsNum.val q)) dp ≠ "-") ∧
    (∀ q dp, decimalPlaces (fmt (some (JsNum.val q)) dp) = dp) ∧
    (∀ n, fmtDefault n = fmt n 2) :=
  ⟨fun _ => rfl, fun _ => rfl, fun q dp => fmtRat_ne_dash q dp,
    fun q dp => fmtRat_decimalPlaces q dp, fun _ => rfl⟩

end Wacc
